import Mathlib

/-!
Verification development for the SQL execution-plan analyzer
(`skills/advanced-sql-skill/scripts/execution_plan_analyzer.py`).

The analyzer parses a SQL Server "showplan" XML document, computes each
operator's share of the statement's total subtree cost, emits diagnostic
warnings for problematic operators, and extracts missing-index
recommendations together with synthesized CREATE INDEX statements.

The embedding below mirrors the Python source:
* XML elements become a rose tree `XmlNode` (tag, attribute list, children);
  `ElementTree.findall('.//p:T')` becomes `XmlNode.findall` over the
  descendant list in document order.  The uniform showplan namespace
  prefix is dropped, since every search in the source uses the same
  single namespace.
* Python `float` values are modelled as rationals (`ℚ`); Python's
  `float(string)` conversion is `pyFloat`, which fails (`none`) exactly
  where Python raises `ValueError` (in particular on the empty string).
  `pyFloat` covers the decimal-numeral fragment of Python's conversion
  (sign, digits, fraction, exponent), which is the format showplan
  attributes use.
* The analyzer's mutable instance state becomes `AnalyzerState`, passed
  and returned explicitly; a Python exception escaping a method becomes
  an `Option.none` result.
-/

/-- One XML element: tag name, attributes in document order, child elements
in document order.  Models `xml.etree.ElementTree.Element`. -/
inductive XmlNode : Type where
  | elem (tag : String) (attrs : List (String × String)) (children : List XmlNode)
deriving Repr

def XmlNode.tag : XmlNode → String
  | .elem t _ _ => t

def XmlNode.attrs : XmlNode → List (String × String)
  | .elem _ a _ => a

def XmlNode.children : XmlNode → List XmlNode
  | .elem _ _ c => c

/-- `Element.get(name)`: value of the first attribute with this name, if any. -/
def XmlNode.get (n : XmlNode) (name : String) : Option String :=
  (n.attrs.find? (fun p => p.1 == name)).map Prod.snd

/-- `Element.get(name, default)` with a string default. -/
def XmlNode.getD (n : XmlNode) (name dflt : String) : String :=
  (n.get name).getD dflt

mutual

/-- All proper descendants of a node, in document (pre-)order: for each child,
the child followed by its own descendants.  This is the node list traversed by
`ElementTree.findall('.//T')` before tag filtering. -/
def XmlNode.descendants : XmlNode → List XmlNode
  | .elem _ _ cs => descendantsOf cs

/-- Descendants contributed by a list of sibling subtrees, in document order. -/
def descendantsOf : List XmlNode → List XmlNode
  | [] => []
  | c :: rest => c :: (XmlNode.descendants c ++ descendantsOf rest)

end

/-- `node.findall('.//p:t')`: all descendants with the given tag, document order. -/
def XmlNode.findall (n : XmlNode) (t : String) : List XmlNode :=
  n.descendants.filter (fun d => d.tag == t)

/-- `node.findall('.//p:t1/p:t2')`: for each descendant with tag `t1` (document
order), its direct children with tag `t2`. -/
def XmlNode.findall2 (n : XmlNode) (t1 t2 : String) : List XmlNode :=
  (n.findall t1).flatMap (fun a => a.children.filter (fun c => c.tag == t2))

/-! ### Python string/number primitives used by the analyzer -/

/-- Strip leading and trailing whitespace, as Python's `float()` does before
parsing. -/
def stripWS (cs : List Char) : List Char :=
  ((cs.dropWhile Char.isWhitespace).reverse.dropWhile Char.isWhitespace).reverse

/-- Python `s.split(sep)` for a one-character separator: accumulate the
current field, emit it at each separator, emit the final field at the end
(so the result is always nonempty). -/
def pySplitCharAux (sep : Char) : List Char → List Char → List String
  | [], acc => [String.mk acc.reverse]
  | c :: rest, acc =>
      if c = sep then String.mk acc.reverse :: pySplitCharAux sep rest []
      else pySplitCharAux sep rest (c :: acc)

def pySplitChar (sep : Char) (s : String) : List String :=
  pySplitCharAux sep s.toList []

/-- Python `s.replace(c, '')` for a one-character pattern: drop every
occurrence of the character. -/
def pyRemoveChar (c : Char) (s : String) : String :=
  String.mk (s.toList.filter (fun d => d ≠ c))

/-- Python `s[:n]`: the first `n` characters. -/
def pyTake (s : String) (n : Nat) : String :=
  String.mk (s.toList.take n)

/-- Python `s.upper()` (ASCII fragment, which is all the analyzer feeds it). -/
def pyUpper (s : String) : String :=
  String.mk (s.toList.map Char.toUpper)

/-- Numeric value of a digit list, most significant first. -/
def digitsToNat (cs : List Char) : Nat :=
  cs.foldl (fun acc c => acc * 10 + (c.toNat - 48)) 0

/-- Parse the unsigned mantissa of a Python float literal: `digits`,
`digits.digits`, `digits.` or `.digits` (at least one digit overall). -/
def parseMantissa (cs : List Char) : Option ℚ :=
  let intPart := cs.takeWhile Char.isDigit
  let rest := cs.dropWhile Char.isDigit
  match rest with
  | [] => if intPart.isEmpty then none else some (digitsToNat intPart : ℚ)
  | '.' :: frac =>
      if frac.all Char.isDigit then
        if intPart.isEmpty && frac.isEmpty then none
        else some ((digitsToNat intPart : ℚ) + (digitsToNat frac : ℚ) / ((10 : ℚ) ^ frac.length))
      else none
  | _ => none

/-- Split a character list at the first `e`/`E`, if any. -/
def splitAtExpChar : List Char → List Char × Option (List Char)
  | [] => ([], none)
  | c :: rest =>
      if c = 'e' ∨ c = 'E' then ([], some rest)
      else
        let p := splitAtExpChar rest
        (c :: p.1, p.2)

/-- Parse an exponent: optional sign followed by a nonempty digit string. -/
def parseExponent (cs : List Char) : Option Int :=
  let digits : List Char → Option Int := fun ds =>
    if !ds.isEmpty && ds.all Char.isDigit then some (digitsToNat ds : Int) else none
  match cs with
  | '+' :: rest => digits rest
  | '-' :: rest => (digits rest).map Neg.neg
  | _ => digits cs

/-- Python's `float(s)` on decimal-numeral strings, as an exact rational.
Returns `none` exactly where Python raises `ValueError`; in particular
`pyFloat "" = none`.  (Special spellings such as `inf`/`nan`/underscore
separators do not occur in showplan attributes and are outside the model.) -/
def pyFloat (s : String) : Option ℚ :=
  let p := splitAtExpChar (stripWS s.toList)
  let mant : Option ℚ :=
    match p.1 with
    | '+' :: rest => parseMantissa rest
    | '-' :: rest => (parseMantissa rest).map Neg.neg
    | body => parseMantissa body
  match mant, p.2 with
  | some m, none => some m
  | some m, some ec => (parseExponent ec).map (fun e => m * (10 : ℚ) ^ e)
  | none, _ => none

/-- Python `int(x)` on a float: truncation toward zero. -/
def pyTrunc (q : ℚ) : Int :=
  if 0 ≤ q then q.floor else -((-q).floor)

/-- Python `s.strip(chars)`: remove leading and trailing characters belonging
to the given set. -/
def pyStrip (s : String) (chars : List Char) : String :=
  String.mk (((s.toList.dropWhile (· ∈ chars)).reverse.dropWhile (· ∈ chars)).reverse)

/-- `float(elem.get(name, 0))`: a missing attribute defaults to `0`; a present
value goes through Python's string-to-float conversion, whose failure
(e.g. on an empty string) is `none`. -/
def pyFloatAttr (n : XmlNode) (name : String) : Option ℚ :=
  match n.get name with
  | none => some 0
  | some s => pyFloat s

/-- `sub in s` on strings: substring containment. -/
def strContainsSub (hay pat : String) : Bool :=
  hay.toList.tails.any (fun t => pat.toList.isPrefixOf t)

/-! ### Python number formatting (used in warning strings and the report) -/

/-- Round to the nearest integer, ties to even — the rounding used by Python's
fixed-point string formatting. -/
def roundHalfEven (q : ℚ) : Int :=
  let f := q.floor
  let r := q - (f : ℚ)
  if r < 1/2 then f
  else if 1/2 < r then f + 1
  else if f % 2 = 0 then f else f + 1

/-- Left-pad a digit string with zeros to the given width. -/
def padZeros (s : String) (w : Nat) : String :=
  if s.length < w then String.mk (List.replicate (w - s.length) '0') ++ s else s

/-- Python `f"{x:.pf}"`: fixed-point rendering with `p` fractional digits. -/
def formatFixed (q : ℚ) (p : Nat) : String :=
  let scaled := roundHalfEven (q * (10 : ℚ) ^ p)
  let sign := if scaled < 0 then "-" else ""
  let n := scaled.natAbs
  let intPart := n / 10 ^ p
  let fracPart := n % 10 ^ p
  if p = 0 then sign ++ toString intPart
  else sign ++ toString intPart ++ "." ++ padZeros (toString fracPart) p

/-- Chunk a list into groups of three, first group possibly shorter at the end. -/
def chunk3 : List Char → List (List Char)
  | [] => []
  | [a] => [[a]]
  | [a, b] => [[a, b]]
  | a :: b :: c :: rest => [a, b, c] :: chunk3 rest

/-- Python `f"{n:,}"`: decimal rendering with thousands separators. -/
def thousandsFmt (n : Int) : String :=
  let digits := toString n.natAbs
  let grouped :=
    String.intercalate "," (((chunk3 digits.toList.reverse).map List.reverse).reverse.map
      (fun l => String.mk l))
  (if n < 0 then "-" else "") ++ grouped

/-- Python `str(x)`/`repr(x)` on a float, for values that are exact decimals
(the only floats the analyzer displays this way come from decimal input):
the shortest decimal expansion, with at least one fractional digit.
Non-terminating rationals fall back to a 17-digit fixed rendering. -/
def pyFloatRepr (q : ℚ) : String :=
  match (List.range 400).find? (fun k => ((10 : ℚ) ^ k * q).den = 1) with
  | some k =>
      let n := ((10 : ℚ) ^ k * q).num
      let sign := if n < 0 then "-" else ""
      let ds := toString n.natAbs
      if k = 0 then sign ++ ds ++ ".0"
      else
        let ds := padZeros ds (k + 1)
        sign ++ String.mk (ds.toList.take (ds.length - k)) ++ "." ++
          String.mk (ds.toList.drop (ds.length - k))
  | none => formatFixed q 17

/-! ### Analyzer data model (`OperatorInfo`, `MissingIndex`, instance state) -/

/-- Information about one plan operator (`@dataclass OperatorInfo`).
`details` is the Python string-keyed dict, kept as an association list in
insertion order. -/
structure OperatorInfo where
  name : String
  cost_percentage : ℚ
  estimated_rows : Int
  actual_rows : Option Int
  object_name : String
  index_name : String
  warnings : List String
  details : List (String × String)
deriving Repr, DecidableEq

/-- One missing-index suggestion (`@dataclass MissingIndex`). -/
structure MissingIndex where
  impact : ℚ
  table_name : String
  equality_columns : List String
  inequality_columns : List String
  included_columns : List String
  create_statement : String
deriving Repr, DecidableEq

/-- The mutable fields of an `ExecutionPlanAnalyzer` instance. -/
structure AnalyzerState where
  threshold_percentage : ℚ
  expensive_operators : List OperatorInfo
  missing_indexes : List MissingIndex
  warnings : List String
  total_cost : ℚ
deriving Repr, DecidableEq

/-- `ExecutionPlanAnalyzer.__init__`: empty accumulators, zero total cost. -/
def initState (threshold : ℚ) : AnalyzerState :=
  { threshold_percentage := threshold
  , expensive_operators := []
  , missing_indexes := []
  , warnings := []
  , total_cost := 0 }

/-! ### `ExecutionPlanAnalyzer` methods -/

/-- Loop body of `_extract_total_cost`: scan `.//p:StmtSimple` nodes in
document order; at the first node whose `StatementSubTreeCost` attribute is
present and truthy (non-empty), convert it with `float` and stop.  A failing
conversion is `none` (Python `ValueError`); if no node qualifies the previous
total cost is kept. -/
def extract_total_cost_go (tc : ℚ) : List XmlNode → Option ℚ
  | [] => some tc
  | stmt :: rest =>
      match stmt.get "StatementSubTreeCost" with
      | none => extract_total_cost_go tc rest
      | some s => if s = "" then extract_total_cost_go tc rest else pyFloat s

/-- `_extract_total_cost`, returning the new `total_cost` field. -/
def extract_total_cost (tc : ℚ) (root : XmlNode) : Option ℚ :=
  extract_total_cost_go tc (root.findall "StmtSimple")

/-- `_extract_operator_info`: build an `OperatorInfo` from a `RelOp` element.
`none` models an uncaught `ValueError` from `float()` on a present but
unparsable attribute value.  (The Python signature is `Optional[OperatorInfo]`
but every non-raising path returns a record, so `none` here only ever means
"raised".) -/
def extract_operator_info (total_cost : ℚ) (relop : XmlNode) : Option OperatorInfo :=
  let physical_op := relop.getD "PhysicalOp" ""
  match pyFloatAttr relop "EstimatedTotalSubtreeCost" with
  | none => none
  | some estimated_cost =>
  match pyFloatAttr relop "EstimateRows" with
  | none => none
  | some rows_float =>
  let estimated_rows := pyTrunc rows_float
  let cost_percentage : ℚ := if 0 < total_cost then (estimated_cost / total_cost) * 100 else 0
  let obj_pair := (relop.findall "Object").foldl
      (fun _ obj => (obj.getD "Table" (obj.getD "Index" ""), obj.getD "Index" "")) ("", "")
  let warnings := (relop.findall "Warnings").flatMap (fun w =>
      (w.findall "ColumnsWithNoStatistics").flatMap (fun cns =>
        (cns.findall "ColumnReference").map (fun col =>
          "No statistics on column: " ++ col.getD "Column" "")))
  match (match relop.get "ActualRows" with
         | none => some none
         | some s => if s = "" then some none
                     else (pyFloat s).map (fun q => some (pyTrunc q))) with
  | none => none
  | some actual_rows =>
  some { name := physical_op
       , cost_percentage := cost_percentage
       , estimated_rows := estimated_rows
       , actual_rows := actual_rows
       , object_name := obj_pair.1
       , index_name := obj_pair.2
       , warnings := warnings
       , details := [ ("logical_op", relop.getD "LogicalOp" "")
                    , ("physical_op", physical_op)
                    , ("estimated_cost", formatFixed estimated_cost 4)
                    , ("estimated_cpu", relop.getD "EstimateCPU" "0")
                    , ("estimated_io", relop.getD "EstimateIO" "0") ] }

/-- The `if`/`elif` chain of `_check_problem_operators` on the physical
operator kind (table scan, clustered index scan, lookups, sort, hash match). -/
def scan_warnings (info : OperatorInfo) : List String :=
  if info.name = "Table Scan" then
    ["🔴 TABLE SCAN on " ++ info.object_name ++ " (" ++ thousandsFmt info.estimated_rows ++
     " rows, " ++ formatFixed info.cost_percentage 1 ++ "% cost) - Consider adding an index"]
  else if info.name = "Clustered Index Scan" then
    if 20 < info.cost_percentage then
      ["🟡 CLUSTERED INDEX SCAN on " ++ info.object_name ++ " (" ++
       thousandsFmt info.estimated_rows ++ " rows, " ++ formatFixed info.cost_percentage 1 ++
       "% cost) - Consider adding a non-clustered index"]
    else []
  else if info.name = "Key Lookup" ∨ info.name = "RID Lookup" then
    ["🟡 KEY LOOKUP on " ++ info.object_name ++ " (" ++ thousandsFmt info.estimated_rows ++
     " rows, " ++ formatFixed info.cost_percentage 1 ++
     "% cost) - Consider creating a covering index with INCLUDE columns"]
  else if info.name = "Sort" then
    if 100000 < info.estimated_rows then
      ["🟡 SORT operation on " ++ thousandsFmt info.estimated_rows ++ " rows (" ++
       formatFixed info.cost_percentage 1 ++ "% cost) - Consider adding an index to avoid sorting"]
    else []
  else if info.name = "Hash Match" then
    if 25 < info.cost_percentage then
      ["🟡 HASH MATCH join (" ++ thousandsFmt info.estimated_rows ++ " rows, " ++
       formatFixed info.cost_percentage 1 ++
       "% cost) - Consider adding indexes to enable merge or nested loop joins"]
    else []
  else []

/-- Implicit-conversion section of `_check_problem_operators`: one warning per
operator-local warning string containing `CONVERT_IMPLICIT` (after upcasing). -/
def conversion_warnings (info : OperatorInfo) : List String :=
  if info.warnings = [] then []
  else info.warnings.flatMap (fun w =>
    if strContainsSub (pyUpper w) "CONVERT_IMPLICIT" then
      ["🔴 IMPLICIT CONVERSION on " ++ info.object_name ++
       " - Prevents index usage and degrades performance"]
    else [])

/-- Row-estimation section of `_check_problem_operators`: fires when
`actual_rows` is present (Python `is not None`), `estimated_rows > 0`, and the
actual/estimated quotient is above 10 or below 0.1 (strictly).  The Python
float literal `0.1` is modelled as the exact rational `1/10`. -/
def row_estimation_warnings (info : OperatorInfo) : List String :=
  match info.actual_rows with
  | none => []
  | some actual =>
      if 0 < info.estimated_rows then
        let quotient : ℚ := (actual : ℚ) / (info.estimated_rows : ℚ)
        if 10 < quotient ∨ quotient < 1/10 then
          ["🟡 ROW ESTIMATION ERROR on " ++ info.object_name ++ ": estimated " ++
           thousandsFmt info.estimated_rows ++ ", actual " ++ thousandsFmt actual ++
           " - Update statistics or check for parameter sniffing"]
        else []
      else []

/-- `_check_problem_operators`: the warnings appended for one operator, in
emission order (operator-kind section, then implicit conversions, then row
estimation).  The Python `if not operator_info: return` guard is unreachable
because `_extract_operator_info` returns a record on every non-raising path. -/
def check_problem_operators (info : OperatorInfo) : List String :=
  scan_warnings info ++ conversion_warnings info ++ row_estimation_warnings info

/-- Loop body of `_analyze_operators` over `.//p:RelOp` nodes: build the
operator record, append it to `expensive_operators` when its cost share
reaches the threshold, then run the problem-operator rules unconditionally. -/
def analyze_operators_go (st : AnalyzerState) : List XmlNode → Option AnalyzerState
  | [] => some st
  | relop :: rest =>
      match extract_operator_info st.total_cost relop with
      | none => none
      | some info =>
          let st1 := if st.threshold_percentage ≤ info.cost_percentage
                     then { st with expensive_operators := st.expensive_operators ++ [info] }
                     else st
          let st2 := { st1 with warnings := st1.warnings ++ check_problem_operators info }
          analyze_operators_go st2 rest

/-- `_analyze_operators`. -/
def analyze_operators (st : AnalyzerState) (root : XmlNode) : Option AnalyzerState :=
  analyze_operators_go st (root.findall "RelOp")

/-- Column list of one `ColumnGroup` element: the stripped `Name` attribute of
each nested `Column` element, in document order. -/
def group_columns (cg : XmlNode) : List String :=
  (cg.findall "Column").map (fun col => pyStrip (col.getD "Name" "") ['[', ']'])

/-- The `for col_group in ...` loop of `_extract_missing_indexes`: each group
overwrites the list for its usage tag; groups with any other usage are
ignored.  Returns (equality, inequality, included). -/
def extract_column_groups :
    List XmlNode → List String × List String × List String → List String × List String × List String
  | [], acc => acc
  | cg :: rest, (e, i, n) =>
      let usage := cg.getD "Usage" ""
      let columns := group_columns cg
      if usage = "EQUALITY" then extract_column_groups rest (columns, i, n)
      else if usage = "INEQUALITY" then extract_column_groups rest (e, columns, n)
      else if usage = "INCLUDE" then extract_column_groups rest (e, i, columns)
      else extract_column_groups rest (e, i, n)

/-- `_generate_create_index`, index-name part: `IX_<last dot-component of the
(stripped) table>_<first ≤3 equality columns joined by underscores>`, all
bracket characters removed, then hard-truncated to 60 characters. -/
def generate_index_name (table : String) (equality : List String) : String :=
  let table_parts := pySplitChar '.' table
  let table_name := if 2 ≤ table_parts.length then table_parts.getLastD "" else table
  let raw := pyRemoveChar ']'
      (pyRemoveChar '[' ("IX_" ++ table_name ++ "_" ++ String.intercalate "_" (equality.take 3)))
  if 60 < raw.length then pyTake raw 60 else raw

/-- `_generate_create_index`: full CREATE INDEX statement text. -/
def generate_create_index (table : String)
    (equality inequality included : List String) : String :=
  let index_name := generate_index_name table equality
  let key_columns := equality ++ inequality
  let key_cols_str := String.intercalate ", " (key_columns.map (fun col => "[" ++ col ++ "]"))
  let include_clause :=
    if included ≠ [] then
      "\nINCLUDE (" ++ String.intercalate ", " (included.map (fun col => "[" ++ col ++ "]")) ++ ")"
    else ""
  "CREATE NONCLUSTERED INDEX " ++ index_name ++ "\nON " ++ table ++ " (" ++ key_cols_str ++ ")" ++
    include_clause ++ ";"

/-- Body of the inner `for idx in ...` loop of `_extract_missing_indexes`:
one `MissingIndex` record from one `MissingIndex` element. -/
def process_missing_index (impact : ℚ) (idx : XmlNode) : MissingIndex :=
  let table := pyStrip (idx.getD "Table" "") ['[', ']']
  let cols := extract_column_groups (idx.findall "ColumnGroup") ([], [], [])
  { impact := impact
  , table_name := table
  , equality_columns := cols.1
  , inequality_columns := cols.2.1
  , included_columns := cols.2.2
  , create_statement := generate_create_index table cols.1 cols.2.1 cols.2.2 }

/-- Loop of `_extract_missing_indexes` over
`.//p:MissingIndexes/p:MissingIndexGroup`: read the group's `Impact` (default
0, `none` on a failing `float()`), then one record per nested `MissingIndex`
element. -/
def extract_missing_indexes_go : List XmlNode → Option (List MissingIndex)
  | [] => some []
  | g :: rest =>
      match pyFloatAttr g "Impact" with
      | none => none
      | some impact =>
          match extract_missing_indexes_go rest with
          | none => none
          | some more =>
              some ((g.findall "MissingIndex").map (process_missing_index impact) ++ more)

/-- `_extract_missing_indexes`, returning the records appended in order. -/
def extract_missing_indexes (root : XmlNode) : Option (List MissingIndex) :=
  extract_missing_indexes_go (root.findall2 "MissingIndexes" "MissingIndexGroup")

/-- `_extract_warnings`: plan-level warnings — a cartesian-product alert when a
`Warnings` block has a `NoJoinPredicate` descendant, and one unmatched-indexes
alert per `UnmatchedIndexes` descendant. -/
def extract_warnings (root : XmlNode) : List String :=
  (root.findall "Warnings").flatMap (fun w =>
    (if (w.findall "NoJoinPredicate").isEmpty then []
     else
      ["🔴 NO JOIN PREDICATE - Cartesian product detected! This will multiply all rows from both tables."])
    ++ (w.findall "UnmatchedIndexes").map (fun _ =>
      "🟡 UNMATCHED INDEXES - Some indexes could not be matched to query"))

/-- `analyze_plan`: total cost, operators, missing indexes, plan-level
warnings, in that order.  `none` models an uncaught exception. -/
def analyze_plan (st : AnalyzerState) (root : XmlNode) : Option AnalyzerState :=
  match extract_total_cost st.total_cost root with
  | none => none
  | some tc =>
      match analyze_operators { st with total_cost := tc } root with
      | none => none
      | some st2 =>
          match extract_missing_indexes root with
          | none => none
          | some recs =>
              some { st2 with
                       missing_indexes := st2.missing_indexes ++ recs
                     , warnings := st2.warnings ++ extract_warnings root }

/-! ### Report rendering and the process boundary -/

/-- Python `sorted(l, key=key, reverse=True)`: stable descending sort. -/
def sortByDesc {α : Type} (key : α → ℚ) (l : List α) : List α :=
  l.mergeSort (fun a b => key b ≤ key a)

def eq_bar : String := String.mk (List.replicate 80 '=')

def dash_bar : String := String.mk (List.replicate 80 '-')

/-- Report block for one expensive operator (`print_report`, operator loop). -/
def report_operator_lines (op : OperatorInfo) : List String :=
  ["\n   Operator: " ++ op.name,
   "   Cost: " ++ formatFixed op.cost_percentage 1 ++ "%",
   "   Object: " ++ (if op.object_name = "" then "N/A" else op.object_name)]
  ++ (if op.index_name = "" then [] else ["   Index: " ++ op.index_name])
  ++ ["   Estimated Rows: " ++ thousandsFmt op.estimated_rows]
  ++ (match op.actual_rows with
      | none => []
      | some a => ["   Actual Rows: " ++ thousandsFmt a])
  ++ op.warnings.map (fun w => "   ⚠️  " ++ w)

/-- Report block for one missing-index suggestion, 1-based position `i`. -/
def report_missing_lines (i : Nat) (idx : MissingIndex) : List String :=
  ["\n" ++ toString i ++ ". Table: " ++ idx.table_name,
   "   Impact: " ++ formatFixed idx.impact 1 ++ "%"]
  ++ (if idx.equality_columns = [] then []
      else ["   Equality Columns: " ++ String.intercalate ", " idx.equality_columns])
  ++ (if idx.inequality_columns = [] then []
      else ["   Inequality Columns: " ++ String.intercalate ", " idx.inequality_columns])
  ++ (if idx.included_columns = [] then []
      else ["   Include Columns: " ++ String.intercalate ", " idx.included_columns])
  ++ ["\n   Suggested Index:\n   " ++ idx.create_statement]

/-- `print_report`: the sequence of `print(...)` payloads, in order (each entry
is one `print` call; embedded `\n` characters are Python's explicit ones). -/
def print_report (st : AnalyzerState) : List String :=
  [ "\n" ++ eq_bar,
    "EXECUTION PLAN ANALYSIS REPORT",
    eq_bar,
    "\n📊 Summary:",
    "   Total Query Cost: " ++ formatFixed st.total_cost 4,
    "   Expensive Operators (>" ++ pyFloatRepr st.threshold_percentage ++ "%): " ++
      toString st.expensive_operators.length,
    "   Missing Indexes: " ++ toString st.missing_indexes.length,
    "   Warnings: " ++ toString st.warnings.length ]
  ++ (if st.expensive_operators = [] then []
      else
        ["\n🔥 Expensive Operators (>" ++ pyFloatRepr st.threshold_percentage ++ "% cost):",
         dash_bar]
        ++ (sortByDesc (fun op => op.cost_percentage) st.expensive_operators).flatMap
             report_operator_lines)
  ++ (if st.warnings = [] then []
      else
        ["\n⚠️  Warnings and Recommendations:", dash_bar]
        ++ (List.enumFrom 1 st.warnings).map
             (fun p => "\n" ++ toString p.1 ++ ". " ++ p.2))
  ++ (if st.missing_indexes = [] then []
      else
        ["\n📋 Missing Index Recommendations:", dash_bar]
        ++ (List.enumFrom 1 (sortByDesc (fun m => m.impact) st.missing_indexes)).flatMap
             (fun p => report_missing_lines p.1 p.2))
  ++ [ "\n💡 Best Practices:",
       dash_bar,
       "1. Focus on operators with >25% cost first",
       "2. Table scans and index scans indicate missing indexes",
       "3. Key lookups can be fixed with covering indexes (INCLUDE clause)",
       "4. Implicit conversions prevent index usage - match data types",
       "5. Large row estimation errors suggest outdated statistics",
       "6. Test index changes in non-production environment first",
       "\n" ++ eq_bar ++ "\n" ]

/-- What the environment supplies for the requested path: no file, a file that
is not well-formed XML (with the parser's message), or a parsed document. -/
inductive FileInput : Type where
  | missing
  | malformed (msg : String)
  | parsed (root : XmlNode)

/-- Observable outcome of one process run: exit code, the payloads printed to
standard output, and the lines written to standard error. -/
structure ProcResult where
  exitCode : Nat
  stdout : List String
  stderr : List String
deriving Repr, DecidableEq

/-- The `main` entry point (with `analyze_file` inlined at its call site):
existence check, banner, parse, analysis, report.  Every diagnostic uses
`print`, i.e. standard output; `sys.exit(1)` sets exit code 1.  An uncaught
exception inside the analysis (a `ValueError` from `float()`; neither
`ET.ParseError` nor `FileNotFoundError`, the only kinds `analyze_file`
catches) terminates the process with a traceback on standard error and exit
code 1. -/
def main_run (input : FileInput) (path : String) (threshold : ℚ) : ProcResult :=
  match input with
  | .missing =>
      { exitCode := 1
      , stdout := ["Error: File '" ++ path ++ "' not found"]
      , stderr := [] }
  | .malformed msg =>
      { exitCode := 1
      , stdout := ["\nAnalyzing execution plan: " ++ path,
                   "Error parsing XML file: " ++ msg]
      , stderr := [] }
  | .parsed root =>
      match analyze_plan (initState threshold) root with
      | some st =>
          { exitCode := 0
          , stdout := ("\nAnalyzing execution plan: " ++ path) :: print_report st
          , stderr := [] }
      | none =>
          { exitCode := 1
          , stdout := ["\nAnalyzing execution plan: " ++ path]
          , stderr := ["ValueError: could not convert string to float"] }

/-! ### Concrete documents used by the claim theorems -/

/-- Spec scenario B: one missing-index group, impact 95.5, table
`[dbo].[Employees]`, equality column `Department`, included column `Salary`. -/
def scenarioB_doc : XmlNode :=
  .elem "ShowPlanXML" [] [
    .elem "MissingIndexes" [] [
      .elem "MissingIndexGroup" [("Impact", "95.5")] [
        .elem "MissingIndex" [("Table", "[dbo].[Employees]")] [
          .elem "ColumnGroup" [("Usage", "EQUALITY")] [
            .elem "Column" [("Name", "[Department]")] []],
          .elem "ColumnGroup" [("Usage", "INCLUDE")] [
            .elem "Column" [("Name", "[Salary]")] []]]]]]

/-- The create statement the analyzer actually synthesizes in scenario B. -/
def scenarioB_stmt : String :=
  "CREATE NONCLUSTERED INDEX IX_Employees_Department\nON dbo].[Employees ([Department])\nINCLUDE ([Salary]);"

/-- C1: the analysis of the scenario-B document yields exactly one
`MissingIndex` record, and its statement is a nonclustered-index creation
statement named `IX_Employees_Department` with an `INCLUDE ([Salary])` clause —
but its `ON` clause names `dbo].[Employees`, not `[dbo].[Employees]` as the
claim states: `_extract_missing_indexes` applies Python `strip('[]')` to the
full table identifier, which removes only the outermost leading `[` and
trailing `]` and leaves the inner decoration mangled, so the emitted SQL is
not well formed.  The claim describes the clear intent; the code diverges. -/
theorem c1_scenarioB_create_statement :
    (analyze_plan (initState 10) scenarioB_doc).map (fun st => st.missing_indexes) =
      some [{ impact := 191/2
            , table_name := "dbo].[Employees"
            , equality_columns := ["Department"]
            , inequality_columns := []
            , included_columns := ["Salary"]
            , create_statement := scenarioB_stmt }] ∧
    strContainsSub scenarioB_stmt "CREATE NONCLUSTERED INDEX IX_Employees_Department" = true ∧
    strContainsSub scenarioB_stmt "INCLUDE ([Salary])" = true ∧
    strContainsSub scenarioB_stmt "ON dbo].[Employees ([Department])" = true ∧
    strContainsSub scenarioB_stmt "ON [dbo].[Employees] ([Department])" = false := by
  refine ⟨by with_unfolding_all rfl, by decide, by decide, by decide, by decide⟩

/-- Operator with a known-but-zero actual row count (`ActualRows="0"`),
positive estimate, and no other noteworthy attributes. -/
def c3_relop : XmlNode := .elem "RelOp" [("EstimateRows", "100"), ("ActualRows", "0")] []

/-- C3 counterexample: the claim says no row-estimation-error warning is
emitted when the actual row count is known but zero; the code checks only
`actual_rows is not None`, so `actual = 0` with `estimated = 100` gives
quotient `0 < 0.1` and the warning *is* emitted. -/
theorem c3_actual_zero_emits_warning :
    (extract_operator_info 0 c3_relop).map row_estimation_warnings =
      some ["🟡 ROW ESTIMATION ERROR on : estimated 100, actual 0 - Update statistics or check for parameter sniffing"] := by
  with_unfolding_all rfl

/-- Operator with estimated 100 and actual 1000 rows: quotient exactly 10. -/
def c4_relop_ten : XmlNode := .elem "RelOp" [("EstimateRows", "100"), ("ActualRows", "1000")] []

/-- Operator with estimated 100 and actual 1001 rows: quotient 10.01. -/
def c4_relop_over : XmlNode := .elem "RelOp" [("EstimateRows", "100"), ("ActualRows", "1001")] []

/-- C4: the row-estimation thresholds are strict — a quotient of exactly 10
(estimated 100, actual 1000) emits no row-estimation warning and indeed no
warning at all, while 10.01 (estimated 100, actual 1001) emits exactly the
row-estimation warning. -/
theorem c4_strict_ratio_boundaries :
    (extract_operator_info 0 c4_relop_ten).map check_problem_operators = some [] ∧
    (extract_operator_info 0 c4_relop_over).map check_problem_operators =
      some ["🟡 ROW ESTIMATION ERROR on : estimated 100, actual 1,001 - Update statistics or check for parameter sniffing"] := by
  exact ⟨by with_unfolding_all rfl, by with_unfolding_all rfl⟩

/-- Operator with two nested object-reference children, tables `T1` and `T2`. -/
def c5_relop : XmlNode :=
  .elem "RelOp" [] [
    .elem "Object" [("Table", "T1")] [],
    .elem "Object" [("Table", "T2")] []]

/-- C5 counterexample: with two `Object` descendants the extracted
`object_name` is `T2`, the table of the *last* reference node — the
`for obj in relop.findall(...)` loop overwrites the name on each iteration —
refuting the claim that the fields come from the *first* nested
object-reference child (which would give `T1`). -/
theorem c5_last_object_wins :
    (extract_operator_info 0 c5_relop).map (fun i => i.object_name) = some "T2" ∧
    (extract_operator_info 0 c5_relop).map (fun i => i.object_name) ≠ some "T1" := by
  exact ⟨by with_unfolding_all rfl, by decide⟩

/-- Operator whose `EstimateRows` attribute is present but empty. -/
def c6_relop : XmlNode := .elem "RelOp" [("EstimateRows", "")] []

/-- C6 counterexample: an empty-string numeric attribute does not default to
zero — `float(relop.get('EstimateRows', 0))` receives `''` and raises
`ValueError` (modelled as `none`), aborting the analysis instead of
continuing, contrary to the claim. -/
theorem c6_empty_string_aborts :
    extract_operator_info 0 c6_relop = none ∧
    analyze_plan (initState 10) (.elem "ShowPlanXML" [] [c6_relop]) = none := by
  exact ⟨by with_unfolding_all rfl, by with_unfolding_all rfl⟩

/-- C7 counterexample: for a nonexistent input path the process exits with
code 1 and prints the diagnostic (`Error: File 'plan.xml' not found`) — but on
standard output (Python `print`), while the error stream stays empty,
refuting the claim's "diagnostic line to the error stream". -/
theorem c7_diagnostic_on_stdout :
    (main_run .missing "plan.xml" 10).exitCode = 1 ∧
    (main_run .missing "plan.xml" 10).stdout = ["Error: File 'plan.xml' not found"] ∧
    (main_run .missing "plan.xml" 10).stderr = [] := by
  exact ⟨rfl, rfl, rfl⟩

/-- Missing-index suggestion whose column `A` occurs both in an `EQUALITY`
and in an `INCLUDE` column group. -/
def c8_doc : XmlNode :=
  .elem "ShowPlanXML" [] [
    .elem "MissingIndexes" [] [
      .elem "MissingIndexGroup" [("Impact", "50")] [
        .elem "MissingIndex" [("Table", "T")] [
          .elem "ColumnGroup" [("Usage", "EQUALITY")] [
            .elem "Column" [("Name", "A")] []],
          .elem "ColumnGroup" [("Usage", "INCLUDE")] [
            .elem "Column" [("Name", "A")] []]]]]]

/-- C8 counterexample: the extractor copies the input's per-usage column
groups verbatim and enforces no disjointness, so a document listing column
`A` under both `EQUALITY` and `INCLUDE` yields a record with `A` in both
`equality_columns` and `included_columns`, refuting the claim's "for every
input document". -/
theorem c8_shared_column_two_roles :
    (extract_missing_indexes c8_doc).map
        (fun recs => recs.map (fun r => (r.equality_columns, r.included_columns))) =
      some [(["A"], ["A"])] := by
  with_unfolding_all rfl

/-- C2: for any operator record the analysis produces, `cost_percentage` is
`100 * own_subtree_cost / total_cost` when `total_cost > 0` and `0` when
`total_cost = 0` (whatever the node's own cost attribute parsed to), and
re-extracting from the unchanged input yields the identical percentage. -/
theorem c2_cost_percentage (tc : ℚ) (relop : XmlNode) (c : ℚ) (info info' : OperatorInfo)
    (hc : pyFloatAttr relop "EstimatedTotalSubtreeCost" = some c)
    (h : extract_operator_info tc relop = some info)
    (h' : extract_operator_info tc relop = some info') :
    (0 < tc → info.cost_percentage = 100 * c / tc) ∧
    (tc = 0 → info.cost_percentage = 0) ∧
    info'.cost_percentage = info.cost_percentage := by
  have hsame : info' = info := by
    rw [h] at h'
    exact (Option.some.inj h').symm
  subst hsame
  unfold extract_operator_info at h
  cases h2 : pyFloatAttr relop "EstimateRows" with
  | none =>
      rw [hc, h2] at h
      simp at h
  | some r =>
      rw [hc, h2] at h
      simp only [] at h
      split at h
      · cases h
      · have hrec := Option.some.inj h
        subst hrec
        refine ⟨fun htc => ?_, fun htc => ?_, rfl⟩
        · dsimp only
          rw [if_pos htc]
          ring
        · dsimp only
          subst htc
          norm_num

/-- Operator node with subtree cost 5, in a plan whose total cost is 10. -/
def c2_relop : XmlNode := .elem "RelOp" [("EstimatedTotalSubtreeCost", "5")] []

/-- The record `_extract_operator_info` builds for `c2_relop` at total cost 10. -/
def c2_info : OperatorInfo :=
  { name := ""
  , cost_percentage := 50
  , estimated_rows := 0
  , actual_rows := none
  , object_name := ""
  , index_name := ""
  , warnings := []
  , details := [ ("logical_op", ""), ("physical_op", ""), ("estimated_cost", "5.0000")
               , ("estimated_cpu", "0"), ("estimated_io", "0") ] }

/-- Witness for C2 at a concrete input: total cost 10, own cost 5 gives a
50% share, i.e. `100 * 5 / 10`. -/
theorem c2_cost_percentage_witness : c2_info.cost_percentage = 100 * 5 / 10 :=
  (c2_cost_percentage 10 c2_relop 5 c2_info c2_info
      (by with_unfolding_all rfl)
      (by with_unfolding_all rfl)
      (by with_unfolding_all rfl)).1 (by norm_num)

/-- C3 (amended): the row-estimation-error warning for an operator record is
emitted exactly when the actual row count is *known* (attribute present and
non-empty; the value itself may be zero), the estimated row count is positive,
and the actual/estimated quotient is strictly above 10 or strictly below 0.1.
In particular a known-but-zero actual count with a positive estimate *does*
emit the warning (quotient 0 < 0.1), unlike the original claim. -/
theorem c3_row_estimation_characterization (info : OperatorInfo) :
    (info.actual_rows = none → row_estimation_warnings info = []) ∧
    (∀ a : Int, info.actual_rows = some a →
      (row_estimation_warnings info ≠ [] ↔
        0 < info.estimated_rows ∧
          (10 < (a : ℚ) / (info.estimated_rows : ℚ) ∨
            (a : ℚ) / (info.estimated_rows : ℚ) < 1/10))) := by
  constructor
  · intro h
    unfold row_estimation_warnings
    rw [h]
  · intro a ha
    unfold row_estimation_warnings
    rw [ha]
    dsimp only
    by_cases hpos : 0 < info.estimated_rows
    · rw [if_pos hpos]
      by_cases hq : 10 < (a : ℚ) / (info.estimated_rows : ℚ) ∨
          (a : ℚ) / (info.estimated_rows : ℚ) < 1/10
      · rw [if_pos hq]
        exact iff_of_true (by simp) ⟨hpos, hq⟩
      · rw [if_neg hq]
        exact iff_of_false (by simp) (fun hcontra => hq hcontra.2)
    · rw [if_neg hpos]
      exact iff_of_false (by simp) (fun hcontra => hpos hcontra.1)

/-- The operator record for a known-but-zero actual row count and estimate
100 (what `_extract_operator_info` builds from `c3_relop`). -/
def c3_info : OperatorInfo :=
  { name := ""
  , cost_percentage := 0
  , estimated_rows := 100
  , actual_rows := some 0
  , object_name := ""
  , index_name := ""
  , warnings := []
  , details := [ ("logical_op", ""), ("physical_op", ""), ("estimated_cost", "0.0000")
               , ("estimated_cpu", "0"), ("estimated_io", "0") ] }

/-- Witness for C3 (amended) at a concrete record: actual 0, estimated 100
does emit the row-estimation warning. -/
theorem c3_row_estimation_witness : row_estimation_warnings c3_info ≠ [] :=
  ((c3_row_estimation_characterization c3_info).2 0 rfl).mpr
    ⟨by norm_num [c3_info], Or.inr (by norm_num [c3_info])⟩

/-- A fold that ignores its accumulator keeps only the last element's image:
the shape of Python loops that re-assign a variable on every iteration. -/
theorem foldl_overwrite_last {α β : Type} (f : α → β) (init : β) (l : List α) :
    l.foldl (fun _ a => f a) init =
      (match l.getLast? with
       | none => init
       | some a => f a) := by
  induction l generalizing init with
  | nil => rfl
  | cons a rest ih =>
      rw [List.foldl_cons, ih]
      cases rest with
      | nil => rfl
      | cons b t =>
          rw [List.getLast?_cons_cons]
          cases hl : (b :: t).getLast? with
          | none => simp at hl
          | some x => rfl

/-- C5 (amended): `object_name` and `index_name` come from the *last* nested
`Object` descendant of the operator (the extraction loop overwrites both on
every iteration), with `object_name` preferring the `Table` attribute and
falling back to `Index` on that same node, and both fields empty when there
is no `Object` descendant. -/
theorem c5_object_from_last_reference (tc : ℚ) (relop : XmlNode) (info : OperatorInfo)
    (h : extract_operator_info tc relop = some info) :
    (info.object_name, info.index_name) =
      (match (relop.findall "Object").getLast? with
       | none => ("", "")
       | some obj => (obj.getD "Table" (obj.getD "Index" ""), obj.getD "Index" "")) := by
  unfold extract_operator_info at h
  cases h1 : pyFloatAttr relop "EstimatedTotalSubtreeCost" with
  | none => rw [h1] at h; simp at h
  | some c =>
  cases h2 : pyFloatAttr relop "EstimateRows" with
  | none => rw [h1, h2] at h; simp at h
  | some r =>
  rw [h1, h2] at h
  simp only [] at h
  split at h
  · cases h
  · have hrec := Option.some.inj h
    subst hrec
    dsimp only
    rw [foldl_overwrite_last
      (fun obj => (XmlNode.getD obj "Table" (XmlNode.getD obj "Index" ""), XmlNode.getD obj "Index" ""))
      ("", "") (relop.findall "Object")]
    cases (relop.findall "Object").getLast? with
    | none => rfl
    | some obj => rfl

/-- The record `_extract_operator_info` builds for `c5_relop` (two `Object`
children, tables `T1` then `T2`). -/
def c5_info : OperatorInfo :=
  { name := ""
  , cost_percentage := 0
  , estimated_rows := 0
  , actual_rows := none
  , object_name := "T2"
  , index_name := ""
  , warnings := []
  , details := [ ("logical_op", ""), ("physical_op", ""), ("estimated_cost", "0.0000")
               , ("estimated_cpu", "0"), ("estimated_io", "0") ] }

/-- Witness for C5 (amended) at a concrete input: with object references `T1`
then `T2`, the extracted names are those of the last reference. -/
theorem c5_object_from_last_reference_witness :
    (c5_info.object_name, c5_info.index_name) = ("T2", "") :=
  (c5_object_from_last_reference 0 c5_relop c5_info (by with_unfolding_all rfl)).trans
    (by with_unfolding_all rfl)

/-- C6 (amended): an *absent* numeric attribute reads as zero and analysis
continues (in particular, an operator node with none of the numeric attributes
extracts successfully with `estimated_rows = 0`); but a *present, empty*
value fails the `float()` conversion instead of reading as zero — the read
raises and analysis aborts, as `c6_empty_string_aborts` shows concretely. -/
theorem c6_numeric_attribute_defaults :
    (∀ (n : XmlNode) (name : String), n.get name = none → pyFloatAttr n name = some 0) ∧
    (∀ (n : XmlNode) (name : String), n.get name = some "" → pyFloatAttr n name = none) ∧
    (∀ (tc : ℚ) (relop : XmlNode),
      relop.get "EstimatedTotalSubtreeCost" = none →
      relop.get "EstimateRows" = none →
      relop.get "ActualRows" = none →
      ∃ info, extract_operator_info tc relop = some info ∧ info.estimated_rows = 0) := by
  refine ⟨fun n name h => ?_, fun n name h => ?_, fun tc relop h1 h2 h3 => ?_⟩
  · unfold pyFloatAttr
    rw [h]
  · unfold pyFloatAttr
    rw [h]
    with_unfolding_all rfl
  · unfold extract_operator_info
    have e1 : pyFloatAttr relop "EstimatedTotalSubtreeCost" = some 0 := by
      unfold pyFloatAttr; rw [h1]
    have e2 : pyFloatAttr relop "EstimateRows" = some 0 := by
      unfold pyFloatAttr; rw [h2]
    rw [e1, e2, h3]
    simp only []
    refine ⟨_, rfl, ?_⟩
    with_unfolding_all rfl

/-- Witness for C6 (amended) at concrete inputs: a node with no attributes
reads all numeric attributes as zero and extracts with `estimated_rows = 0`,
while a present-but-empty `Impact` reads as a failure. -/
theorem c6_numeric_attribute_defaults_witness :
    pyFloatAttr (XmlNode.elem "RelOp" [] []) "EstimateRows" = some 0 ∧
    pyFloatAttr (XmlNode.elem "MissingIndexGroup" [("Impact", "")] []) "Impact" = none ∧
    ∃ info, extract_operator_info 7 (XmlNode.elem "RelOp" [] []) = some info ∧
      info.estimated_rows = 0 :=
  ⟨c6_numeric_attribute_defaults.1 (XmlNode.elem "RelOp" [] []) "EstimateRows" rfl,
   c6_numeric_attribute_defaults.2.1 (XmlNode.elem "MissingIndexGroup" [("Impact", "")] []) "Impact"
     (by with_unfolding_all rfl),
   c6_numeric_attribute_defaults.2.2 7 (XmlNode.elem "RelOp" [] []) rfl rfl rfl⟩

/-- C7 (amended): a nonexistent path exits with code 1 after a diagnostic
line on *standard output* (not the error stream, which stays empty) and no
report; a malformed document exits with code 1 after the banner line and a
parse diagnostic, again on standard output only, with no report; a parsed
document whose analysis completes exits with code 0 and prints the report. -/
theorem c7_exit_codes (path msg : String) (threshold : ℚ) (root : XmlNode)
    (st : AnalyzerState) :
    main_run .missing path threshold =
      { exitCode := 1
      , stdout := ["Error: File '" ++ path ++ "' not found"]
      , stderr := [] } ∧
    main_run (.malformed msg) path threshold =
      { exitCode := 1
      , stdout := ["\nAnalyzing execution plan: " ++ path, "Error parsing XML file: " ++ msg]
      , stderr := [] } ∧
    (analyze_plan (initState threshold) root = some st →
      main_run (.parsed root) path threshold =
        { exitCode := 0
        , stdout := ("\nAnalyzing execution plan: " ++ path) :: print_report st
        , stderr := [] }) := by
  refine ⟨rfl, rfl, fun h => ?_⟩
  unfold main_run
  dsimp only
  rw [h]

/-- Witness for C7 (amended) at concrete inputs: an empty parsed document
analyzes successfully and exits 0. -/
theorem c7_exit_codes_witness :
    main_run (.parsed (XmlNode.elem "ShowPlanXML" [] [])) "plan.sqlplan" 10 =
      { exitCode := 0
      , stdout := ("\nAnalyzing execution plan: plan.sqlplan") :: print_report (initState 10)
      , stderr := [] } :=
  (c7_exit_codes "plan.sqlplan" "m" 10 (XmlNode.elem "ShowPlanXML" [] []) (initState 10)).2.2
    (by with_unfolding_all rfl)

/-- Role-disjointness of one record's three column lists: no column name
occurs in two of equality/inequality/included. -/
def roles_disjoint (eqc ineqc inclc : List String) : Prop :=
  (∀ c ∈ eqc, c ∉ ineqc ∧ c ∉ inclc) ∧ ∀ c ∈ ineqc, c ∉ inclc

/-- The equality component of the column-group fold is either the initial
accumulator or the column list of some `EQUALITY`-tagged group of the input. -/
theorem extract_column_groups_fst (gs : List XmlNode) :
    ∀ acc : List String × List String × List String,
      (extract_column_groups gs acc).1 = acc.1 ∨
        ∃ g ∈ gs, g.getD "Usage" "" = "EQUALITY" ∧
          (extract_column_groups gs acc).1 = group_columns g := by
  induction gs with
  | nil => intro acc; exact Or.inl rfl
  | cons g rest ih =>
      rintro ⟨e, i, n⟩
      unfold extract_column_groups
      dsimp only
      by_cases h1 : g.getD "Usage" "" = "EQUALITY"
      · rw [if_pos h1]
        rcases ih (group_columns g, i, n) with h | ⟨g', hm, hu, he⟩
        · exact Or.inr ⟨g, List.mem_cons_self g rest, h1, h⟩
        · exact Or.inr ⟨g', List.mem_cons_of_mem g hm, hu, he⟩
      · rw [if_neg h1]
        by_cases h2 : g.getD "Usage" "" = "INEQUALITY"
        · rw [if_pos h2]
          rcases ih (e, group_columns g, n) with h | ⟨g', hm, hu, he⟩
          · exact Or.inl h
          · exact Or.inr ⟨g', List.mem_cons_of_mem g hm, hu, he⟩
        · rw [if_neg h2]
          by_cases h3 : g.getD "Usage" "" = "INCLUDE"
          · rw [if_pos h3]
            rcases ih (e, i, group_columns g) with h | ⟨g', hm, hu, he⟩
            · exact Or.inl h
            · exact Or.inr ⟨g', List.mem_cons_of_mem g hm, hu, he⟩
          · rw [if_neg h3]
            rcases ih (e, i, n) with h | ⟨g', hm, hu, he⟩
            · exact Or.inl h
            · exact Or.inr ⟨g', List.mem_cons_of_mem g hm, hu, he⟩

/-- As `extract_column_groups_fst`, for the inequality component. -/
theorem extract_column_groups_snd (gs : List XmlNode) :
    ∀ acc : List String × List String × List String,
      (extract_column_groups gs acc).2.1 = acc.2.1 ∨
        ∃ g ∈ gs, g.getD "Usage" "" = "INEQUALITY" ∧
          (extract_column_groups gs acc).2.1 = group_columns g := by
  induction gs with
  | nil => intro acc; exact Or.inl rfl
  | cons g rest ih =>
      rintro ⟨e, i, n⟩
      unfold extract_column_groups
      dsimp only
      by_cases h1 : g.getD "Usage" "" = "EQUALITY"
      · rw [if_pos h1]
        rcases ih (group_columns g, i, n) with h | ⟨g', hm, hu, he⟩
        · exact Or.inl h
        · exact Or.inr ⟨g', List.mem_cons_of_mem g hm, hu, he⟩
      · rw [if_neg h1]
        by_cases h2 : g.getD "Usage" "" = "INEQUALITY"
        · rw [if_pos h2]
          rcases ih (e, group_columns g, n) with h | ⟨g', hm, hu, he⟩
          · exact Or.inr ⟨g, List.mem_cons_self g rest, h2, h⟩
          · exact Or.inr ⟨g', List.mem_cons_of_mem g hm, hu, he⟩
        · rw [if_neg h2]
          by_cases h3 : g.getD "Usage" "" = "INCLUDE"
          · rw [if_pos h3]
            rcases ih (e, i, group_columns g) with h | ⟨g', hm, hu, he⟩
            · exact Or.inl h
            · exact Or.inr ⟨g', List.mem_cons_of_mem g hm, hu, he⟩
          · rw [if_neg h3]
            rcases ih (e, i, n) with h | ⟨g', hm, hu, he⟩
            · exact Or.inl h
            · exact Or.inr ⟨g', List.mem_cons_of_mem g hm, hu, he⟩

/-- As `extract_column_groups_fst`, for the included component. -/
theorem extract_column_groups_thd (gs : List XmlNode) :
    ∀ acc : List String × List String × List String,
      (extract_column_groups gs acc).2.2 = acc.2.2 ∨
        ∃ g ∈ gs, g.getD "Usage" "" = "INCLUDE" ∧
          (extract_column_groups gs acc).2.2 = group_columns g := by
  induction gs with
  | nil => intro acc; exact Or.inl rfl
  | cons g rest ih =>
      rintro ⟨e, i, n⟩
      unfold extract_column_groups
      dsimp only
      by_cases h1 : g.getD "Usage" "" = "EQUALITY"
      · rw [if_pos h1]
        rcases ih (group_columns g, i, n) with h | ⟨g', hm, hu, he⟩
        · exact Or.inl h
        · exact Or.inr ⟨g', List.mem_cons_of_mem g hm, hu, he⟩
      · rw [if_neg h1]
        by_cases h2 : g.getD "Usage" "" = "INEQUALITY"
        · rw [if_pos h2]
          rcases ih (e, group_columns g, n) with h | ⟨g', hm, hu, he⟩
          · exact Or.inl h
          · exact Or.inr ⟨g', List.mem_cons_of_mem g hm, hu, he⟩
        · rw [if_neg h2]
          by_cases h3 : g.getD "Usage" "" = "INCLUDE"
          · rw [if_pos h3]
            rcases ih (e, i, group_columns g) with h | ⟨g', hm, hu, he⟩
            · exact Or.inr ⟨g, List.mem_cons_self g rest, h3, h⟩
            · exact Or.inr ⟨g', List.mem_cons_of_mem g hm, hu, he⟩
          · rw [if_neg h3]
            rcases ih (e, i, n) with h | ⟨g', hm, hu, he⟩
            · exact Or.inl h
            · exact Or.inr ⟨g', List.mem_cons_of_mem g hm, hu, he⟩

/-- A direct child contributes itself to the sibling-list descendant set. -/
theorem mem_descendantsOf_of_mem : ∀ (cs : List XmlNode), ∀ c ∈ cs, c ∈ descendantsOf cs
  | x :: rest => by
      intro c hc
      unfold descendantsOf
      rcases List.mem_cons.mp hc with rfl | h
      · exact List.mem_cons_self _ _
      · exact List.mem_cons_of_mem x
          (List.mem_append_right _ (mem_descendantsOf_of_mem rest c h))
  | [] => by
      intro c hc
      exact absurd hc (List.not_mem_nil c)

mutual

/-- Descendant membership is transitive through a node. -/
theorem XmlNode.descendants_trans :
    ∀ (a : XmlNode), ∀ b ∈ a.descendants, ∀ c ∈ b.descendants, c ∈ a.descendants
  | .elem _ _ cs => fun b hb c hc => descendantsOf_trans cs b hb c hc

/-- Descendant membership is transitive through a sibling list. -/
theorem descendantsOf_trans :
    ∀ (cs : List XmlNode), ∀ b ∈ descendantsOf cs, ∀ c ∈ b.descendants, c ∈ descendantsOf cs
  | [] => by
      intro b hb
      unfold descendantsOf at hb
      exact absurd hb (List.not_mem_nil b)
  | x :: rest => by
      intro b hb c hc
      unfold descendantsOf at hb ⊢
      rcases List.mem_cons.mp hb with rfl | hb2
      · exact List.mem_cons_of_mem b (List.mem_append_left _ hc)
      · rcases List.mem_append.mp hb2 with hbx | hbr
        · exact List.mem_cons_of_mem x
            (List.mem_append_left _ (XmlNode.descendants_trans x b hbx c hc))
        · exact List.mem_cons_of_mem x
            (List.mem_append_right _ (descendantsOf_trans rest b hbr c hc))

end

/-- `findall` membership is descendant membership plus the tag condition. -/
theorem mem_findall_iff (n : XmlNode) (t : String) (x : XmlNode) :
    x ∈ n.findall t ↔ x ∈ n.descendants ∧ x.tag = t := by
  unfold XmlNode.findall
  rw [List.mem_filter]
  simp

/-- A node produced by the two-step path search is a descendant of the root. -/
theorem mem_descendants_of_mem_findall2 (n : XmlNode) (t1 t2 : String) (g : XmlNode)
    (h : g ∈ n.findall2 t1 t2) : g ∈ n.descendants := by
  unfold XmlNode.findall2 at h
  obtain ⟨a, ha, hg⟩ := List.mem_flatMap.mp h
  have hchild : g ∈ a.children := (List.mem_filter.mp hg).1
  have hdesc : g ∈ a.descendants := by
    cases a with
    | elem t as cs => exact mem_descendantsOf_of_mem cs g hchild
  exact XmlNode.descendants_trans n a ((mem_findall_iff n t1 a).mp ha).1 g hdesc

/-- A `ColumnGroup` descendant of a suggestion element reached through the
missing-index searches is a `ColumnGroup` descendant of the whole document. -/
theorem columngroup_mem_root (root g idx cg : XmlNode)
    (hg : g ∈ root.findall2 "MissingIndexes" "MissingIndexGroup")
    (hidx : idx ∈ g.findall "MissingIndex")
    (hcg : cg ∈ idx.findall "ColumnGroup") :
    cg ∈ root.findall "ColumnGroup" := by
  have h1 := mem_descendants_of_mem_findall2 root "MissingIndexes" "MissingIndexGroup" g hg
  have h2 := ((mem_findall_iff g "MissingIndex" idx).mp hidx).1
  have h3 := (mem_findall_iff idx "ColumnGroup" cg).mp hcg
  exact (mem_findall_iff root "ColumnGroup" cg).mpr
    ⟨XmlNode.descendants_trans root g h1 cg (XmlNode.descendants_trans g idx h2 cg h3.1), h3.2⟩

/-- Every record the missing-index loop emits is `process_missing_index` of
some `MissingIndex` element nested in one of the traversed groups. -/
theorem extract_missing_indexes_go_mem (gs : List XmlNode) :
    ∀ recs, extract_missing_indexes_go gs = some recs →
      ∀ r ∈ recs, ∃ impact g idx, g ∈ gs ∧ idx ∈ g.findall "MissingIndex" ∧
        r = process_missing_index impact idx := by
  induction gs with
  | nil =>
      intro recs h
      unfold extract_missing_indexes_go at h
      cases h
      intro r hr
      simp at hr
  | cons g rest ih =>
      intro recs h
      unfold extract_missing_indexes_go at h
      cases h1 : pyFloatAttr g "Impact" with
      | none => rw [h1] at h; cases h
      | some impact =>
          rw [h1] at h
          simp only [] at h
          cases h2 : extract_missing_indexes_go rest with
          | none => rw [h2] at h; cases h
          | some more =>
              rw [h2] at h
              simp only [] at h
              cases h
              intro r hr
              rcases List.mem_append.mp hr with hmem | hmem
              · obtain ⟨idx, hidx, rfl⟩ := List.mem_map.mp hmem
                exact ⟨impact, g, idx, List.mem_cons_self g rest, hidx, rfl⟩
              · obtain ⟨impact', g', idx', hg', hidx', rfl⟩ := ih more h2 r hmem
                exact ⟨impact', g', idx', List.mem_cons_of_mem g hg', hidx', rfl⟩

/-- The record built from one suggestion element has role-disjoint column
lists whenever that element's own column groups of different usages share no
column name. -/
theorem process_missing_index_disjoint (impact : ℚ) (idx : XmlNode)
    (hdisj : ∀ g1 ∈ idx.findall "ColumnGroup", ∀ g2 ∈ idx.findall "ColumnGroup",
        XmlNode.getD g1 "Usage" "" ≠ XmlNode.getD g2 "Usage" "" →
        ∀ c ∈ group_columns g1, c ∉ group_columns g2) :
    roles_disjoint (process_missing_index impact idx).equality_columns
      (process_missing_index impact idx).inequality_columns
      (process_missing_index impact idx).included_columns := by
  unfold process_missing_index
  dsimp only
  have key : ∀ (u1 u2 : String) (l1 l2 : List String),
      u1 ≠ u2 →
      (l1 = [] ∨ ∃ g ∈ idx.findall "ColumnGroup",
          XmlNode.getD g "Usage" "" = u1 ∧ l1 = group_columns g) →
      (l2 = [] ∨ ∃ g ∈ idx.findall "ColumnGroup",
          XmlNode.getD g "Usage" "" = u2 ∧ l2 = group_columns g) →
      ∀ c ∈ l1, c ∉ l2 := by
    rintro u1 u2 l1 l2 hu (rfl | ⟨g1, hg1, hu1, rfl⟩) h2 c hc
    · exact absurd hc (List.not_mem_nil c)
    · rcases h2 with rfl | ⟨g2, hg2, hu2, rfl⟩
      · exact List.not_mem_nil c
      · refine hdisj g1 hg1 g2 hg2 ?_ c hc
        rw [hu1, hu2]
        exact hu
  have h1 := extract_column_groups_fst (idx.findall "ColumnGroup") ([], [], [])
  have h2 := extract_column_groups_snd (idx.findall "ColumnGroup") ([], [], [])
  have h3 := extract_column_groups_thd (idx.findall "ColumnGroup") ([], [], [])
  exact ⟨fun c hc => ⟨key "EQUALITY" "INEQUALITY" _ _ (by decide) h1 h2 c hc,
                      key "EQUALITY" "INCLUDE" _ _ (by decide) h1 h3 c hc⟩,
         fun c hc => key "INEQUALITY" "INCLUDE" _ _ (by decide) h2 h3 c hc⟩

/-- C8 (amended): the extractor copies the usage-tagged column groups
verbatim and enforces no disjointness of its own (see
`c8_shared_column_two_roles` for a violating input); accordingly, for every
input document whose `ColumnGroup` descendants of different usages share no
column name, every `MissingIndex` record the analysis produces has pairwise
disjoint equality/inequality/included lists. -/
theorem c8_role_disjointness (root : XmlNode) (recs : List MissingIndex)
    (h : extract_missing_indexes root = some recs)
    (hdisj : ∀ g1 ∈ root.findall "ColumnGroup", ∀ g2 ∈ root.findall "ColumnGroup",
        XmlNode.getD g1 "Usage" "" ≠ XmlNode.getD g2 "Usage" "" →
        ∀ c ∈ group_columns g1, c ∉ group_columns g2) :
    ∀ r ∈ recs,
      roles_disjoint r.equality_columns r.inequality_columns r.included_columns := by
  intro r hr
  obtain ⟨impact, g, idx, hg, hidx, rfl⟩ :=
    extract_missing_indexes_go_mem
      (root.findall2 "MissingIndexes" "MissingIndexGroup") recs h r hr
  refine process_missing_index_disjoint impact idx ?_
  intro g1 hg1 g2 hg2 hne c hc
  exact hdisj g1 (columngroup_mem_root root g idx g1 hg hidx hg1)
    g2 (columngroup_mem_root root g idx g2 hg hidx hg2) hne c hc

/-- Missing-index element whose column groups are role-disjoint: `EQUALITY`
column `A`, `INCLUDE` column `B`. -/
def c8_disjoint_idx : XmlNode :=
  .elem "MissingIndex" [("Table", "T")] [
    .elem "ColumnGroup" [("Usage", "EQUALITY")] [
      .elem "Column" [("Name", "A")] []],
    .elem "ColumnGroup" [("Usage", "INCLUDE")] [
      .elem "Column" [("Name", "B")] []]]

/-- A whole document whose only suggestion is `c8_disjoint_idx`. -/
def c8_disjoint_doc : XmlNode :=
  .elem "ShowPlanXML" [] [
    .elem "MissingIndexes" [] [
      .elem "MissingIndexGroup" [("Impact", "50")] [c8_disjoint_idx]]]

/-- Witness for C8 (amended) at a concrete document whose column groups are
role-disjoint: the single extracted record's role lists are disjoint. -/
theorem c8_role_disjointness_witness :
    roles_disjoint (process_missing_index 50 c8_disjoint_idx).equality_columns
      (process_missing_index 50 c8_disjoint_idx).inequality_columns
      (process_missing_index 50 c8_disjoint_idx).included_columns :=
  c8_role_disjointness c8_disjoint_doc [process_missing_index 50 c8_disjoint_idx]
    (by with_unfolding_all rfl) (by decide)
    (process_missing_index 50 c8_disjoint_idx) (List.mem_singleton.mpr rfl)

/-- C9: the synthesized index name is
`IX_<bare table name>_<first up to 3 equality columns joined by underscores>`
with every bracket character removed, and is hard-truncated to 60 characters:
the result is the raw name when that is at most 60 characters long, its
60-character prefix otherwise, so the name never exceeds 60 characters and a
raw name longer than 60 is cut to exactly 60. -/
theorem c9_index_name_truncation (table : String) (equality : List String) :
    (generate_index_name table equality =
      (let table_parts := pySplitChar '.' table
       let table_name := if 2 ≤ table_parts.length then table_parts.getLastD "" else table
       let raw := pyRemoveChar ']' (pyRemoveChar '['
         ("IX_" ++ table_name ++ "_" ++ String.intercalate "_" (equality.take 3)))
       if 60 < raw.length then pyTake raw 60 else raw)) ∧
    (generate_index_name table equality).length ≤ 60 ∧
    ((let table_parts := pySplitChar '.' table
      let table_name := if 2 ≤ table_parts.length then table_parts.getLastD "" else table
      pyRemoveChar ']' (pyRemoveChar '['
        ("IX_" ++ table_name ++ "_" ++ String.intercalate "_" (equality.take 3)))).length > 60 →
      (generate_index_name table equality).length = 60) := by
  refine ⟨rfl, ?_, ?_⟩ <;>
  · unfold generate_index_name
    dsimp only
    set raw := pyRemoveChar ']' (pyRemoveChar '['
      ("IX_" ++ (if 2 ≤ (pySplitChar '.' table).length then (pySplitChar '.' table).getLastD ""
                 else table) ++ "_" ++ String.intercalate "_" (equality.take 3))) with hraw
    by_cases h : 60 < raw.length
    · rw [if_pos h]
      have hlen : (pyTake raw 60).length = 60 := by
        have : (pyTake raw 60).length = min 60 raw.length := by
          cases raw with
          | mk data => simp [pyTake, String.length, String.toList, List.length_take]
        omega
      simp [hlen]
    · rw [if_neg h]
      omega

/-- Witness for C9 at a concrete input whose raw name exceeds 60 characters:
the synthesized name is cut to exactly 60. -/
theorem c9_index_name_truncation_witness :
    (generate_index_name "dbo].[AVeryLongTableNameForTruncationTesting"
      ["ColumnNumberOne", "ColumnNumberTwo", "ColumnNumberThree"]).length = 60 :=
  (c9_index_name_truncation "dbo].[AVeryLongTableNameForTruncationTesting"
      ["ColumnNumberOne", "ColumnNumberTwo", "ColumnNumberThree"]).2.2 (by decide)

/-- One pass of the operator loop only appends to the accumulator lists and
leaves the threshold, the total cost and the missing-index list unchanged. -/
theorem analyze_operators_go_append (l : List XmlNode) :
    ∀ st st', analyze_operators_go st l = some st' →
      st'.threshold_percentage = st.threshold_percentage ∧
      st'.total_cost = st.total_cost ∧
      st'.missing_indexes = st.missing_indexes ∧
      (∃ ops, st'.expensive_operators = st.expensive_operators ++ ops) ∧
      (∃ ws, st'.warnings = st.warnings ++ ws) := by
  induction l with
  | nil =>
      intro st st' h
      unfold analyze_operators_go at h
      cases h
      exact ⟨rfl, rfl, rfl, ⟨[], (List.append_nil _).symm⟩, ⟨[], (List.append_nil _).symm⟩⟩
  | cons relop rest ih =>
      intro st st' h
      unfold analyze_operators_go at h
      cases hx : extract_operator_info st.total_cost relop with
      | none => rw [hx] at h; cases h
      | some info =>
          rw [hx] at h
          simp only [] at h
          obtain ⟨hth, htc, hmi, ⟨ops, hops⟩, ⟨ws, hws⟩⟩ := ih _ _ h
          by_cases hcase : st.threshold_percentage ≤ info.cost_percentage
          · rw [if_pos hcase] at hth htc hmi hops hws
            refine ⟨hth, htc, hmi, ⟨info :: ops, ?_⟩, ⟨check_problem_operators info ++ ws, ?_⟩⟩
            · rw [hops]
              simp
            · rw [hws]
              simp
          · rw [if_neg hcase] at hth htc hmi hops hws
            refine ⟨hth, htc, hmi, ⟨ops, hops⟩, ⟨check_problem_operators info ++ ws, ?_⟩⟩
            rw [hws]
            simp

/-- C10: a completed `analyze_plan` call only appends to the three
accumulator lists — every previously present entry is still present, in its
original position, as a prefix of the new list — so a second document
analyzed on the same instance accumulates findings after the first's. -/
theorem c10_accumulators_append_only (st : AnalyzerState) (root : XmlNode)
    (st' : AnalyzerState) (h : analyze_plan st root = some st') :
    (∃ ops, st'.expensive_operators = st.expensive_operators ++ ops) ∧
    (∃ recs, st'.missing_indexes = st.missing_indexes ++ recs) ∧
    (∃ ws, st'.warnings = st.warnings ++ ws) := by
  unfold analyze_plan at h
  cases htc : extract_total_cost st.total_cost root with
  | none => rw [htc] at h; cases h
  | some tc =>
      rw [htc] at h
      simp only [] at h
      cases hao : analyze_operators { st with total_cost := tc } root with
      | none => rw [hao] at h; cases h
      | some st2 =>
          rw [hao] at h
          simp only [] at h
          cases hmi : extract_missing_indexes root with
          | none => rw [hmi] at h; cases h
          | some recs =>
              rw [hmi] at h
              simp only [] at h
              cases h
              unfold analyze_operators at hao
              obtain ⟨_, _, hmi2, ⟨ops, hops⟩, ⟨ws, hws⟩⟩ :=
                analyze_operators_go_append _ _ _ hao
              refine ⟨⟨ops, hops⟩, ⟨recs, ?_⟩, ⟨ws ++ extract_warnings root, ?_⟩⟩
              · rw [hmi2]
              · rw [hws]
                simp

/-- Analyzer state carrying findings from an earlier document. -/
def c10_prior_state : AnalyzerState :=
  { threshold_percentage := 10
  , expensive_operators := []
  , missing_indexes := []
  , warnings := ["🔴 TABLE SCAN on Old (5 rows, 90.0% cost) - Consider adding an index"]
  , total_cost := 3 }

/-- Document whose only finding is a plan-level cartesian-product warning. -/
def c10_doc : XmlNode :=
  .elem "ShowPlanXML" [] [
    .elem "Warnings" [] [
      .elem "NoJoinPredicate" [] []]]

/-- The state after analyzing `c10_doc` on top of `c10_prior_state`. -/
def c10_next_state : AnalyzerState :=
  { threshold_percentage := 10
  , expensive_operators := []
  , missing_indexes := []
  , warnings := ["🔴 TABLE SCAN on Old (5 rows, 90.0% cost) - Consider adding an index",
                 "🔴 NO JOIN PREDICATE - Cartesian product detected! This will multiply all rows from both tables."]
  , total_cost := 3 }

/-- Witness for C10 at a concrete input: the prior warning is still first in
the accumulated list after a second analysis pass. -/
theorem c10_accumulators_append_only_witness :
    ∃ ws, c10_next_state.warnings = c10_prior_state.warnings ++ ws :=
  (c10_accumulators_append_only c10_prior_state c10_doc c10_next_state
      (by with_unfolding_all rfl)).2.2
